import Mathlib

/-!
Verification of the species-speed analytics pipeline
(`src/app/species-speed/animal-speed-graph.tsx`).

The TypeScript source is shallowly embedded below:

* JavaScript `Number(string)` coercion is modelled by `jsStringToNumber`
  (decimal string literals; the datasets never contain hex/octal/binary
  numeric strings, which are therefore out of the model).
* JavaScript numbers are modelled by rationals plus explicit NaN/Infinity
  markers (`JSNum`); validated records carry exact rationals.
* The three d3 row-conversion callbacks are `parseDietRow`,
  `parseWeightRow`, `parseEndangermentRow`.
* The `Map`-based aggregation of the endangerment chart is embedded as an
  association list built by a left fold (`insertEndDatum`).
* `Array.prototype.sort` (stable per the ECMAScript spec) is embedded as
  `List.insertionSort`, which is stable; a stable sort's output is unique,
  so this is exact.
* `Array.prototype.reduce` without an initial value is the fold that seeds
  on the first element, as in `weightInsight`.
-/

/-- Model of a JavaScript number as produced by coercing a CSV cell:
either NaN, one of the two infinities, or a finite value (an exact
rational stands in for the IEEE double). -/
inductive JSNum where
  | nan : JSNum
  | inf : JSNum
  | negInf : JSNum
  | fin (q : ℚ) : JSNum
deriving DecidableEq

/-- Model of `Number.isFinite`. -/
def numberIsFinite : JSNum → Bool
  | .fin _ => true
  | _ => false

/-- Model of `String.prototype.trim`: strip leading and trailing
whitespace. -/
def jsTrim (s : String) : String :=
  ⟨((s.data.dropWhile Char.isWhitespace).reverse.dropWhile Char.isWhitespace).reverse⟩

/-- Model of `String.prototype.toLowerCase` on the ASCII strings this
pipeline sees. -/
def jsToLower (s : String) : String :=
  ⟨s.data.map Char.toLower⟩

/-- Numeric value of a list of decimal digit characters. -/
def digitsVal (ds : List Char) : Nat :=
  ds.foldl (fun a c => 10 * a + (c.toNat - '0'.toNat)) 0

/-- Parse the optional exponent part of a decimal literal
(`e`/`E`, optional sign, one or more digits); the whole remainder must be
consumed.  An empty remainder means exponent 0. -/
def parseExponentPart : List Char → Option Int
  | [] => some 0
  | c :: rest =>
    if c = 'e' ∨ c = 'E' then
      match rest with
      | '+' :: ds => if ds ≠ [] ∧ ds.all Char.isDigit then some (digitsVal ds) else none
      | '-' :: ds => if ds ≠ [] ∧ ds.all Char.isDigit then some (-(digitsVal ds : Int)) else none
      | ds => if ds ≠ [] ∧ ds.all Char.isDigit then some (digitsVal ds) else none
    else none

/-- Scale a rational by a power of ten (the exponent part of a decimal
literal). -/
def applyExp (q : ℚ) : Int → ℚ
  | .ofNat n => q * 10 ^ n
  | .negSucc n => q / 10 ^ (n + 1)

/-- Parse an unsigned decimal literal (`digits`, `digits.digits?`,
`.digits`, each with an optional exponent part), consuming the whole
input. -/
def parseUnsignedDec (cs : List Char) : Option ℚ :=
  let ip := cs.takeWhile Char.isDigit
  let rest := cs.dropWhile Char.isDigit
  match rest with
  | '.' :: rest2 =>
    let fp := rest2.takeWhile Char.isDigit
    let rest3 := rest2.dropWhile Char.isDigit
    if ip = [] ∧ fp = [] then none
    else
      match parseExponentPart rest3 with
      | some e => some (applyExp ((digitsVal ip : ℚ) + (digitsVal fp : ℚ) / 10 ^ fp.length) e)
      | none => none
  | _ =>
    if ip = [] then none
    else
      match parseExponentPart rest with
      | some e => some (applyExp (digitsVal ip : ℚ) e)
      | none => none

/-- Model of the ECMAScript `Number(string)` coercion on the strings this
pipeline sees: trim; the empty string coerces to 0; explicit infinities;
otherwise an optionally signed decimal literal, and NaN when the text is
not numeric. -/
def jsStringToNumber (s : String) : JSNum :=
  let t := jsTrim s
  if t.data = [] then .fin 0
  else if t = "Infinity" ∨ t = "+Infinity" then .inf
  else if t = "-Infinity" then .negInf
  else
    match t.data with
    | '+' :: rest =>
      match parseUnsignedDec rest with
      | some q => .fin q
      | none => .nan
    | '-' :: rest =>
      match parseUnsignedDec rest with
      | some q => .fin (-q)
      | none => .nan
    | cs =>
      match parseUnsignedDec cs with
      | some q => .fin q
      | none => .nan

/-- Coercion of a possibly absent CSV field: `Number(undefined)` is NaN. -/
def jsNumberOfField : Option String → JSNum
  | none => .nan
  | some s => jsStringToNumber s

/-- The three normalized diet categories. -/
inductive Diet where
  | herbivore : Diet
  | omnivore : Diet
  | carnivore : Diet
deriving DecidableEq

/-- Fixed domain for the diet chart (source constant `DIET_ORDER`). -/
def DIET_ORDER : List Diet := [.herbivore, .omnivore, .carnivore]

/-- The string form of each diet value. -/
def dietToString : Diet → String
  | .herbivore => "herbivore"
  | .omnivore => "omnivore"
  | .carnivore => "carnivore"

/-- Model of the `isDiet` type guard, returning the typed value: the
source checks membership in `DIET_ORDER` and then uses the raw string as
the `Diet`. -/
def dietFromString (value : String) : Option Diet :=
  DIET_ORDER.find? (fun d => dietToString d = value)

/-- The nine canonical conservation statuses. -/
inductive EndangermentStatus where
  | notEvaluated : EndangermentStatus
  | dataDeficient : EndangermentStatus
  | leastConcern : EndangermentStatus
  | nearThreatened : EndangermentStatus
  | vulnerable : EndangermentStatus
  | endangered : EndangermentStatus
  | criticallyEndangered : EndangermentStatus
  | extinctInTheWild : EndangermentStatus
  | extinct : EndangermentStatus
deriving DecidableEq

/-- Canonical severity order (source constant `ENDANGERMENT_ORDER`). -/
def ENDANGERMENT_ORDER : List EndangermentStatus :=
  [.notEvaluated, .dataDeficient, .leastConcern, .nearThreatened, .vulnerable,
   .endangered, .criticallyEndangered, .extinctInTheWild, .extinct]

/-- The string form of each status, exactly the strings in
`ENDANGERMENT_ORDER` in the source. -/
def statusToString : EndangermentStatus → String
  | .notEvaluated => "Not Evaluated"
  | .dataDeficient => "Data Deficient"
  | .leastConcern => "Least Concern"
  | .nearThreatened => "Near Threatened"
  | .vulnerable => "Vulnerable"
  | .endangered => "Endangered"
  | .criticallyEndangered => "Critically Endangered"
  | .extinctInTheWild => "Extinct in the Wild"
  | .extinct => "Extinct"

/-- Model of the `isEndangermentStatus` type guard (exact, case-sensitive
membership in the canonical list), returning the typed value. -/
def statusFromString (value : String) : Option EndangermentStatus :=
  ENDANGERMENT_ORDER.find? (fun st => statusToString st = value)

/-- Validated row of the speed-vs-diet dataset (source `AnimalDatum`). -/
structure AnimalDatum where
  name : String
  speed : ℚ
  diet : Diet
deriving DecidableEq

/-- Validated row of the speed-vs-weight dataset (source `WeightDatum`). -/
structure WeightDatum where
  name : String
  speed : ℚ
  bodyMass : ℚ
deriving DecidableEq

/-- Validated row of the speed-vs-endangerment dataset
(source `EndangermentDatum`). -/
structure EndangermentDatum where
  name : String
  speed : ℚ
  endangerment : EndangermentStatus
deriving DecidableEq

/-- Raw CSV row of the diet dataset: each column may be absent. -/
structure RawDietRow where
  name : Option String
  speed : Option String
  diet : Option String

/-- Raw CSV row of the weight dataset. -/
structure RawWeightRow where
  name : Option String
  speed : Option String
  body_mass : Option String

/-- Raw CSV row of the endangerment dataset. -/
structure RawEndangermentRow where
  name : Option String
  speed : Option String
  endangerment : Option String

/-- Row conversion of the diet dataset (the callback passed to `csv` at
lines 687-696): trim the name, coerce the speed, normalize the diet, and
drop the row unless the name is non-empty, the speed is finite and the
diet is one of the three categories. -/
def parseDietRow (row : RawDietRow) : Option AnimalDatum :=
  let name := (row.name.map jsTrim).getD ""
  let speed := jsNumberOfField row.speed
  let rawDiet := (row.diet.map (fun s => jsToLower (jsTrim s))).getD ""
  if name = "" then none
  else
    match speed, dietFromString rawDiet with
    | .fin q, some d => some { name := name, speed := q, diet := d }
    | _, _ => none

/-- Row conversion of the weight dataset (lines 697-706): additionally
requires a finite, strictly positive body mass. -/
def parseWeightRow (row : RawWeightRow) : Option WeightDatum :=
  let name := (row.name.map jsTrim).getD ""
  let speed := jsNumberOfField row.speed
  let bodyMass := jsNumberOfField row.body_mass
  if name = "" then none
  else
    match speed, bodyMass with
    | .fin q, .fin m =>
      if m ≤ 0 then none else some { name := name, speed := q, bodyMass := m }
    | _, _ => none

/-- Row conversion of the endangerment dataset (lines 707-715): the
trimmed status must match a canonical status exactly. -/
def parseEndangermentRow (row : RawEndangermentRow) : Option EndangermentDatum :=
  let name := (row.name.map jsTrim).getD ""
  let speed := jsNumberOfField row.speed
  let status := (row.endangerment.map jsTrim).getD ""
  if name = "" then none
  else
    match speed, statusFromString status with
    | .fin q, some st => some { name := name, speed := q, endangerment := st }
    | _, _ => none

/-- Outcome of the three concurrent dataset fetches: each `csv` call either
rejects (transport failure, modelled by the thrown error's message) or
resolves with the raw rows of its file. -/
structure RawDatasets where
  dietRows : Except String (List RawDietRow)
  weightRows : Except String (List RawWeightRow)
  endangermentRows : Except String (List RawEndangermentRow)

/-- Component state owned by `AnimalSpeedGraph`: the three parsed record
sets and the shared loading-error banner. -/
structure ChartsState where
  dietData : List AnimalDatum
  weightData : List WeightDatum
  endangermentData : List EndangermentDatum
  loadingError : Option String
deriving DecidableEq

/-- The state before any load completes: three empty record sets, no
error. -/
def initialChartsState : ChartsState :=
  { dietData := [], weightData := [], endangermentData := [], loadingError := none }

/-- Model of `Promise.all` over three already-settled promises: the tuple
of values when all resolve, otherwise a rejection.  (The real combinator
rejects with the temporally first rejection; this model picks the first in
argument order — no claim below depends on which message wins.) -/
def promiseAll3 {α β γ : Type} :
    Except String α → Except String β → Except String γ → Except String (α × β × γ)
  | .ok a, .ok b, .ok c => .ok (a, b, c)
  | .error e, _, _ => .error e
  | _, .error e, _ => .error e
  | _, _, .error e => .error e

/-- Model of `loadAllChartsData` (lines 683-734): each `csv` call maps its
raw rows through the row conversion (dropping `null` results), the three
promises are joined with `Promise.all`, and then either all three record
sets are committed and the error cleared, or the `catch` branch sets the
error banner and touches no data.  The `isCancelled` teardown flag is not
modelled (the claims are about a mounted component). -/
def loadAllChartsData (state : ChartsState) (fetched : RawDatasets) : ChartsState :=
  match promiseAll3
      (fetched.dietRows.map (fun rows => rows.filterMap parseDietRow))
      (fetched.weightRows.map (fun rows => rows.filterMap parseWeightRow))
      (fetched.endangermentRows.map (fun rows => rows.filterMap parseEndangermentRow)) with
  | .ok (dietRows, weightRows, endangermentRows) =>
    { dietData := dietRows, weightData := weightRows,
      endangermentData := endangermentRows, loadingError := none }
  | .error message =>
    { state with loadingError := some ("Could not load chart data: " ++ message) }

/-- Summary row of the diet chart (lines 184-193): one entry per diet in
`DIET_ORDER`, averaging 0 when the group is empty. -/
structure DietSummary where
  diet : Diet
  averageSpeed : ℚ
  count : Nat
deriving DecidableEq

/-- The diet chart's per-diet aggregation (lines 184-193): built over the
whole fixed `DIET_ORDER`, with `averageSpeed` 0 for an empty group. -/
def dietChartSummaries (data : List AnimalDatum) : List DietSummary :=
  DIET_ORDER.map (fun diet =>
    let rows := data.filter (fun datum => datum.diet == diet)
    let totalSpeed := (rows.map (fun datum => datum.speed)).sum
    { diet := diet,
      averageSpeed := if rows.length ≠ 0 then totalSpeed / rows.length else 0,
      count := rows.length })

/-- The diet chart's y scale domain before nicing (lines 198-200):
`[0, max(max(speed) ?? 0) * 1.1, 1)]`, the lower bound always 0. -/
def dietYDomain (data : List AnimalDatum) : ℚ × ℚ :=
  (0, max (((data.map (fun datum => datum.speed)).max?.getD 0) * 1.1) 1)

/-- The weight chart's logarithmic x domain before nicing (lines 334-339):
lower bound `max(min(bodyMass), 0.1)`, upper bound widened to
`minMass * 10` when the raw maximum does not exceed the lower bound.
`none` on the empty list, which the renderer bails out on earlier. -/
def weightLogDomain : List WeightDatum → Option (ℚ × ℚ)
  | [] => none
  | d :: rest =>
    let minMass := max (((d :: rest).map (fun datum => datum.bodyMass)).foldl min d.bodyMass) (1 / 10)
    let maxMass := ((d :: rest).map (fun datum => datum.bodyMass)).foldl max d.bodyMass
    let safeMaxMass := if maxMass > minMass then maxMass else minMass * 10
    some (minMass, safeMaxMass)

/-- Per-status sum of speeds among the validated endangerment records. -/
def sumSpeed (data : List EndangermentDatum) (status : EndangermentStatus) : ℚ :=
  ((data.filter (fun datum => datum.endangerment == status)).map (fun datum => datum.speed)).sum

/-- Per-status record count among the validated endangerment records. -/
def countStatus (data : List EndangermentDatum) (status : EndangermentStatus) : Nat :=
  (data.filter (fun datum => datum.endangerment == status)).length

/-- One step of the `Map`-building `forEach` of lines 446-457, embedded on
an association list: bump the first entry with the datum's status, or
append a fresh entry. -/
def insertEndDatum (aggregates : List (EndangermentStatus × ℚ × Nat)) (datum : EndangermentDatum) :
    List (EndangermentStatus × ℚ × Nat) :=
  match aggregates with
  | [] => [(datum.endangerment, datum.speed, 1)]
  | (status, speedSum, count) :: rest =>
    if status = datum.endangerment then (status, speedSum + datum.speed, count + 1) :: rest
    else (status, speedSum, count) :: insertEndDatum rest datum

/-- The aggregates `Map` of lines 446-457 as an association list. -/
def buildAggregates (data : List EndangermentDatum) : List (EndangermentStatus × ℚ × Nat) :=
  data.foldl insertEndDatum []

/-- Model of `aggregates.get(status)`. -/
def lookupStatus (aggregates : List (EndangermentStatus × ℚ × Nat)) (status : EndangermentStatus) :
    Option (EndangermentStatus × ℚ × Nat) :=
  aggregates.find? (fun entry => entry.1 == status)

/-- Summary row of the endangerment chart (lines 460-467). -/
structure EndangermentSummary where
  status : EndangermentStatus
  averageSpeed : ℚ
  count : Nat
deriving DecidableEq

/-- The endangerment chart's ordered rows (lines 460-467): the canonical
order filtered to statuses in the aggregates map, each mapped to its mean
speed and count.  The `none` branch mirrors the source's non-null
assertion and is unreachable. -/
def endangermentChartData (data : List EndangermentDatum) : List EndangermentSummary :=
  let aggregates := buildAggregates data
  (ENDANGERMENT_ORDER.filter (fun status => (lookupStatus aggregates status).isSome)).map
    (fun status =>
      match lookupStatus aggregates status with
      | some (_, speedSum, count) =>
        { status := status, averageSpeed := speedSum / count, count := count }
      | none => { status := status, averageSpeed := 0, count := 0 })

/-- Model of `calculateMeanSpeed` (lines 119-121): sum of speeds divided
by the row count.  TypeScript's structural `{ speed: number }[]` argument
becomes a speed projection. -/
def calculateMeanSpeed {α : Type} (speed : α → ℚ) (rows : List α) : ℚ :=
  (rows.foldl (fun acc row => acc + speed row) 0) / rows.length

/-- Mean of a list of rationals, as computed inside `pearsonCorrelation`
(sum via `reduce`, divided by the sample size). -/
def listMean (values : List ℚ) : ℚ :=
  (values.foldl (fun acc value => acc + value) 0) / values.length

/-- The `xVariance`/`yVariance` accumulator of `pearsonCorrelation`: sum
of squared deviations from the mean. -/
def centeredSumSq (values : List ℚ) : ℚ :=
  (values.map (fun value => (value - listMean values) ^ 2)).sum

/-- Model of `pearsonCorrelation` (lines 123-144).  The source returns
`covariance / Math.sqrt(xVariance * yVariance)`; square roots leave ℚ, so
the embedding returns the pair `(covariance, xVariance * yVariance)` from
which `r` is `cov / sqrt(prod)` — the `null` structure, which is all the
claims quantify over, is preserved exactly: `null` on a length mismatch
or fewer than 2 samples, and `null` when either variance is zero (the
source's falsy test `!xVariance || !yVariance` on exact arithmetic). -/
def pearsonParts (xValues yValues : List ℚ) : Option (ℚ × ℚ) :=
  if xValues.length ≠ yValues.length ∨ xValues.length < 2 then none
  else
    let covariance := ((xValues.zip yValues).map
      (fun p => (p.1 - listMean xValues) * (p.2 - listMean yValues))).sum
    let xVariance := centeredSumSq xValues
    let yVariance := centeredSumSq yValues
    if xVariance = 0 ∨ yVariance = 0 then none
    else some (covariance, xVariance * yVariance)

/-- Model of `Number.prototype.toFixed(2)` on exact rationals (round to
two decimal places and print). -/
def toFixed2 (q : ℚ) : String :=
  let scaled : Int := round (q * 100)
  let sign := if scaled < 0 then "-" else ""
  let a := scaled.natAbs
  sign ++ toString (a / 100) ++ "." ++ (if a % 100 < 10 then "0" else "") ++ toString (a % 100)

/-- The trend classification of lines 626-633, a function of the
(possibly undefined) correlation value. -/
def trendLabel (massSpeedCorrelation : Option ℚ) : String :=
  match massSpeedCorrelation with
  | none => "no measurable mass-speed trend"
  | some r =>
    if r > 0.2 then "a weak positive mass-speed trend"
    else if r < -0.2 then "a weak negative mass-speed trend"
    else "a very weak mass-speed trend"

/-- The `correlationText` fragment of lines 635-636: empty when the
correlation is undefined, otherwise the parenthesised numeric `r`. -/
def correlationText (massSpeedCorrelation : Option ℚ) : String :=
  match massSpeedCorrelation with
  | none => ""
  | some r => " (r=" ++ toFixed2 r ++ " on log mass)"

/-- A per-group summary used by the insight synthesizer (the anonymous
record `{ diet/status, count, averageSpeed }` of lines 587-594 and
646-653), generic in the grouping key. -/
structure KeyedSummary (kappa : Type) where
  key : kappa
  count : Nat
  averageSpeed : ℚ
deriving DecidableEq

/-- The sort relation of `(a, b) => b.averageSpeed - a.averageSpeed`: `a`
sorts no later than `b` exactly when the comparator is `≤ 0`. -/
def speedGE {kappa : Type} (a b : KeyedSummary kappa) : Prop :=
  b.averageSpeed ≤ a.averageSpeed

instance {kappa : Type} : DecidableRel (@speedGE kappa) :=
  fun a b => inferInstanceAs (Decidable (b.averageSpeed ≤ a.averageSpeed))

instance {kappa : Type} : IsTotal (KeyedSummary kappa) speedGE :=
  ⟨fun a b => le_total b.averageSpeed a.averageSpeed⟩

instance {kappa : Type} : IsTrans (KeyedSummary kappa) speedGE :=
  ⟨fun _ _ _ h1 h2 => le_trans h2 h1⟩

/-- The insight synthesizer's per-diet summaries (lines 587-594): built
over `DIET_ORDER`, then filtered to groups with at least one member. -/
def dietInsightSummaries (dietData : List AnimalDatum) : List (KeyedSummary Diet) :=
  (DIET_ORDER.map (fun diet =>
    let rows := dietData.filter (fun datum => datum.diet == diet)
    ({ key := diet, count := rows.length,
       averageSpeed :=
         if rows.length ≠ 0 then calculateMeanSpeed (fun datum => datum.speed) rows else 0 } :
      KeyedSummary Diet))).filter (fun summary => decide (0 < summary.count))

/-- The diet insight of lines 586-608: requires non-empty data and at
least two present diets; sorts the summaries by descending mean speed
(stable, as `Array.prototype.sort` is) and reports the first and last
with their gap.  The `[]` branch of the match is unreachable. -/
def dietInsight (dietData : List AnimalDatum) :
    Option (KeyedSummary Diet × KeyedSummary Diet × ℚ) :=
  if dietData.length ≠ 0 then
    let dietSummaries := dietInsightSummaries dietData
    if 2 ≤ dietSummaries.length then
      match List.insertionSort speedGE dietSummaries with
      | [] => none
      | fastestDiet :: restSorted =>
        let slowestDiet := (fastestDiet :: restSorted).getLast (List.cons_ne_nil _ _)
        some (fastestDiet, slowestDiet,
          fastestDiet.averageSpeed - slowestDiet.averageSpeed)
    else none
  else none

/-- The insight synthesizer's per-status summaries (lines 646-653). -/
def statusInsightSummaries (endangermentData : List EndangermentDatum) :
    List (KeyedSummary EndangermentStatus) :=
  (ENDANGERMENT_ORDER.map (fun status =>
    let rows := endangermentData.filter (fun datum => datum.endangerment == status)
    ({ key := status, count := rows.length,
       averageSpeed :=
         if rows.length ≠ 0 then calculateMeanSpeed (fun datum => datum.speed) rows else 0 } :
      KeyedSummary EndangermentStatus))).filter (fun summary => decide (0 < summary.count))

/-- Lines 655-657: prefer the statuses with at least 5 samples; fall back
to all present statuses when fewer than two qualify. -/
def analysisStatusSummaries (endangermentData : List EndangermentDatum) :
    List (KeyedSummary EndangermentStatus) :=
  let statusSummaries := statusInsightSummaries endangermentData
  let primarySummaries := statusSummaries.filter (fun summary => decide (5 ≤ summary.count))
  if 2 ≤ primarySummaries.length then primarySummaries else statusSummaries

/-- The endangerment insight of lines 645-673: non-empty data, at least
two analysis summaries, stable sort by descending mean speed, report
first, last and the gap.  The `[]` branch is unreachable. -/
def endangermentInsight (endangermentData : List EndangermentDatum) :
    Option (KeyedSummary EndangermentStatus × KeyedSummary EndangermentStatus × ℚ) :=
  if endangermentData.length ≠ 0 then
    let analysisSummaries := analysisStatusSummaries endangermentData
    if 2 ≤ analysisSummaries.length then
      match List.insertionSort speedGE analysisSummaries with
      | [] => none
      | fastestStatus :: restSorted =>
        let slowestStatus := (fastestStatus :: restSorted).getLast (List.cons_ne_nil _ _)
        some (fastestStatus, slowestStatus,
          fastestStatus.averageSpeed - slowestStatus.averageSpeed)
    else none
  else none

/-- The data reported by the weight insight of lines 610-643.  The emitted
string's trend fragment is `trendLabel`/`correlationText` applied to the
true correlation `cov / sqrt(prod)`; the insight record carries the
pre-square-root `pearsonParts` pair (see there). -/
structure WeightInsight where
  fastestSpecies : WeightDatum
  lightestSpecies : WeightDatum
  heaviestSpecies : WeightDatum
  massSpeedCorrelation : Option (ℚ × ℚ)
deriving DecidableEq

/-- The weight insight of lines 610-643: requires at least two records;
the three featured records come from `reduce` calls seeded on the first
element with strict comparisons against the current best.  `logTen`
abstracts `Math.log10`, which has no exact rational counterpart; claims
about it are stated for arbitrary transforms or at the identity. -/
def weightInsight (logTen : ℚ → ℚ) (weightData : List WeightDatum) : Option WeightInsight :=
  if 2 ≤ weightData.length then
    match weightData with
    | [] => none
    | first :: rest =>
      some
        { fastestSpecies := rest.foldl
            (fun currentBest datum =>
              if datum.speed > currentBest.speed then datum else currentBest) first,
          lightestSpecies := rest.foldl
            (fun currentLightest datum =>
              if datum.bodyMass < currentLightest.bodyMass then datum else currentLightest) first,
          heaviestSpecies := rest.foldl
            (fun currentHeaviest datum =>
              if datum.bodyMass > currentHeaviest.bodyMass then datum else currentHeaviest) first,
          massSpeedCorrelation := pearsonParts
            ((first :: rest).map (fun datum => logTen datum.bodyMass))
            ((first :: rest).map (fun datum => datum.speed)) }
  else none

/-- One entry of the `analysisPoints` list, with the formatted string
abstracted to its structured payload. -/
inductive InsightPoint where
  | dietPoint (fastest slowest : KeyedSummary Diet) (gap : ℚ) : InsightPoint
  | weightPoint (w : WeightInsight) : InsightPoint
  | endangermentPoint (fastest slowest : KeyedSummary EndangermentStatus) (gap : ℚ) : InsightPoint
deriving DecidableEq

/-- The `analysisPoints` memo of lines 583-676: the diet, weight and
endangerment insights pushed in that order, each only when emitted. -/
def analysisPoints (logTen : ℚ → ℚ) (dietData : List AnimalDatum)
    (weightData : List WeightDatum) (endangermentData : List EndangermentDatum) :
    List InsightPoint :=
  (match dietInsight dietData with
   | some (f, s, g) => [InsightPoint.dietPoint f s g]
   | none => [])
  ++ (match weightInsight logTen weightData with
   | some w => [InsightPoint.weightPoint w]
   | none => [])
  ++ (match endangermentInsight endangermentData with
   | some (f, s, g) => [InsightPoint.endangermentPoint f s g]
   | none => [])


/-- The weight chart's linear y domain before nicing (lines 343-344):
`[0, max((max(speed) ?? 0) * 1.1, 1)]`, the lower bound always 0. -/
def weightYDomain (data : List WeightDatum) : ℚ × ℚ :=
  (0, max (((data.map (fun datum => datum.speed)).max?.getD 0) * 1.1) 1)

/-- The endangerment chart's linear y domain before nicing (lines
481-482): `[0, max((max(averageSpeed) ?? 0) * 1.12, 1)]` over the chart's
summary rows, the lower bound always 0. -/
def endangermentYDomain (data : List EndangermentDatum) : ℚ × ℚ :=
  (0, max ((((endangermentChartData data).map
    (fun row => row.averageSpeed)).max?.getD 0) * 1.12) 1)

lemma lookup_insert_same (m : List (EndangermentStatus × ℚ × Nat)) (d : EndangermentDatum) :
    lookupStatus (insertEndDatum m d) d.endangerment =
      match lookupStatus m d.endangerment with
      | some (st, a, c) => some (st, a + d.speed, c + 1)
      | none => some (d.endangerment, d.speed, 1) := by
  induction m with
  | nil => simp [insertEndDatum, lookupStatus]
  | cons hd tl ih =>
    obtain ⟨st, a, c⟩ := hd
    by_cases h : st = d.endangerment
    · subst h
      simp [insertEndDatum, lookupStatus]
    · simp only [insertEndDatum, if_neg h]
      have hbeq : (st == d.endangerment) = false := by simp [h]
      simp only [lookupStatus, List.find?_cons, hbeq]
      exact ih

lemma lookup_insert_other (m : List (EndangermentStatus × ℚ × Nat)) (d : EndangermentDatum)
    (st : EndangermentStatus) (h : st ≠ d.endangerment) :
    lookupStatus (insertEndDatum m d) st = lookupStatus m st := by
  induction m with
  | nil =>
    have hbeq : (d.endangerment == st) = false := by simp [Ne.symm h]
    simp [insertEndDatum, lookupStatus, hbeq]
  | cons hd tl ih =>
    obtain ⟨st', a, c⟩ := hd
    by_cases h' : st' = d.endangerment
    · subst h'
      have hbeq : (d.endangerment == st) = false := by simp [Ne.symm h]
      simp [insertEndDatum, lookupStatus, List.find?_cons, hbeq]
    · simp only [insertEndDatum, if_neg h']
      simp only [lookupStatus, List.find?_cons] at *
      cases hb : (st' == st) with
      | true => simp [hb]
      | false => simpa [hb] using ih

lemma countStatus_nil (st : EndangermentStatus) : countStatus [] st = 0 := rfl

lemma sumSpeed_cons (d : EndangermentDatum) (rest : List EndangermentDatum)
    (st : EndangermentStatus) :
    sumSpeed (d :: rest) st =
      if d.endangerment = st then d.speed + sumSpeed rest st else sumSpeed rest st := by
  by_cases h : d.endangerment = st <;> simp [sumSpeed, List.filter_cons, h]

lemma countStatus_cons (d : EndangermentDatum) (rest : List EndangermentDatum)
    (st : EndangermentStatus) :
    countStatus (d :: rest) st =
      if d.endangerment = st then countStatus rest st + 1 else countStatus rest st := by
  by_cases h : d.endangerment = st <;> simp [countStatus, List.filter_cons, h]

lemma sumSpeed_eq_zero {data : List EndangermentDatum} {st : EndangermentStatus}
    (h : countStatus data st = 0) : sumSpeed data st = 0 := by
  have : data.filter (fun datum => datum.endangerment == st) = [] :=
    List.length_eq_zero.mp h
  simp [sumSpeed, this]

lemma lookup_foldl_insert (data : List EndangermentDatum) :
    ∀ (m : List (EndangermentStatus × ℚ × Nat)) (st : EndangermentStatus),
      lookupStatus (data.foldl insertEndDatum m) st =
        if countStatus data st = 0 then lookupStatus m st
        else
          match lookupStatus m st with
          | some (st', a, c) => some (st', a + sumSpeed data st, c + countStatus data st)
          | none => some (st, sumSpeed data st, countStatus data st) := by
  induction data with
  | nil => intro m st; simp [countStatus_nil]
  | cons d rest ih =>
    intro m st
    rw [List.foldl_cons, ih (insertEndDatum m d) st]
    by_cases hst : d.endangerment = st
    · subst hst
      rw [lookup_insert_same m d]
      have hc : countStatus (d :: rest) d.endangerment =
          countStatus rest d.endangerment + 1 := by
        rw [countStatus_cons]; simp
      have hs : sumSpeed (d :: rest) d.endangerment =
          d.speed + sumSpeed rest d.endangerment := by
        rw [sumSpeed_cons]; simp
      rw [hc, hs]
      by_cases hz : countStatus rest d.endangerment = 0
      · have hsz := sumSpeed_eq_zero hz
        rw [hz, hsz, if_pos rfl]
        simp only [Nat.zero_add]
        rw [if_neg (Nat.succ_ne_zero _)]
        cases hm : lookupStatus m d.endangerment with
        | none => simp
        | some entry =>
          obtain ⟨st', a, c⟩ := entry
          simp
      · rw [if_neg hz, if_neg (by omega)]
        cases hm : lookupStatus m d.endangerment with
        | none => simp [add_comm]
        | some entry =>
          obtain ⟨st', a, c⟩ := entry
          simp only [Option.some.injEq, Prod.mk.injEq]
          refine ⟨trivial, by ring, by omega⟩
    · rw [lookup_insert_other m d st (Ne.symm hst)]
      rw [countStatus_cons, sumSpeed_cons, if_neg hst, if_neg hst]

lemma lookup_buildAggregates (data : List EndangermentDatum) (st : EndangermentStatus) :
    lookupStatus (buildAggregates data) st =
      if countStatus data st = 0 then none
      else some (st, sumSpeed data st, countStatus data st) := by
  have h := lookup_foldl_insert data [] st
  rw [buildAggregates]
  rw [h]
  by_cases hz : countStatus data st = 0 <;> simp [lookupStatus, hz]

lemma endangermentChartData_eq (data : List EndangermentDatum) :
    endangermentChartData data =
      (ENDANGERMENT_ORDER.filter (fun st => decide (countStatus data st ≠ 0))).map
        (fun st =>
          { status := st, averageSpeed := sumSpeed data st / countStatus data st,
            count := countStatus data st }) := by
  rw [endangermentChartData]
  have hfilter :
      ENDANGERMENT_ORDER.filter (fun st => (lookupStatus (buildAggregates data) st).isSome) =
      ENDANGERMENT_ORDER.filter (fun st => decide (countStatus data st ≠ 0)) := by
    apply List.filter_congr
    intro st _
    rw [lookup_buildAggregates]
    by_cases hz : countStatus data st = 0 <;> simp [hz]
  rw [hfilter]
  apply List.map_congr_left
  intro st hst
  have hz : countStatus data st ≠ 0 := by
    have := List.of_mem_filter hst
    simpa using this
  rw [lookup_buildAggregates, if_neg hz]

lemma endangermentChartData_statuses (data : List EndangermentDatum) :
    (endangermentChartData data).map (fun row => row.status) =
      ENDANGERMENT_ORDER.filter (fun st => data.any (fun d => d.endangerment == st)) := by
  rw [endangermentChartData_eq, List.map_map]
  have hmap :
      ((fun row => row.status) ∘ fun st =>
        ({ status := st, averageSpeed := sumSpeed data st / countStatus data st,
           count := countStatus data st } : EndangermentSummary)) = id := rfl
  rw [hmap, List.map_id]
  apply List.filter_congr
  intro st _
  have : (countStatus data st ≠ 0) ↔ (data.any (fun d => d.endangerment == st) = true) := by
    rw [countStatus]
    rw [Ne, List.length_eq_zero, List.filter_eq_nil_iff]
    rw [List.any_eq_true]
    push_neg
    constructor
    · rintro ⟨x, hx, hpx⟩
      exact ⟨x, hx, by simpa using hpx⟩
    · rintro ⟨x, hx, hpx⟩
      exact ⟨x, hx, by simpa using hpx⟩
  by_cases hz : countStatus data st ≠ 0
  · simp [hz, this.mp hz]
  · have : ¬(data.any (fun d => d.endangerment == st) = true) := fun hc => hz (this.mpr hc)
    simp only [Bool.not_eq_true] at this
    simp [hz, this]

lemma reduce_strict_max {α : Type} (key : α → ℚ) :
    ∀ (l : List α) (a : α),
      (∀ b ∈ a :: l,
        key b ≤ key (l.foldl (fun best d => if key d > key best then d else best) a))
      ∧ (a :: l).find?
          (fun b =>
            decide (key (l.foldl (fun best d => if key d > key best then d else best) a) ≤ key b))
        = some (l.foldl (fun best d => if key d > key best then d else best) a) := by
  intro l
  induction l with
  | nil =>
    intro a
    constructor
    · intro b hb
      rw [List.mem_singleton] at hb
      subst hb
      exact le_refl _
    · simp
  | cons x xs ih =>
    intro a
    rw [List.foldl_cons]
    by_cases hax : key x > key a
    · rw [if_pos hax]
      obtain ⟨ih1, ih2⟩ := ih x
      constructor
      · intro b hb
        rcases List.mem_cons.mp hb with h | h
        · rw [h]
          exact le_trans (le_of_lt hax) (ih1 x (List.mem_cons_self _ _))
        · exact ih1 b h
      · have hfa : decide (key (xs.foldl (fun best d => if key d > key best then d else best) x)
            ≤ key a) = false := by
          rw [decide_eq_false_iff_not, not_le]
          exact lt_of_lt_of_le hax (ih1 x (List.mem_cons_self _ _))
        simp only [List.find?_cons, hfa]
        exact ih2
    · rw [if_neg hax]
      obtain ⟨ih1, ih2⟩ := ih a
      have hxa : key x ≤ key a := le_of_not_lt hax
      constructor
      · intro b hb
        rcases List.mem_cons.mp hb with h | h
        · rw [h]
          exact ih1 a (List.mem_cons_self _ _)
        · rcases List.mem_cons.mp h with h' | h'
          · rw [h']
            exact le_trans hxa (ih1 a (List.mem_cons_self _ _))
          · exact ih1 b (List.mem_cons_of_mem _ h')
      · cases hpa : decide (key (xs.foldl (fun best d => if key d > key best then d else best) a)
            ≤ key a) with
        | true =>
          have ih2h := ih2
          simp only [List.find?_cons, hpa] at ih2h
          simp only [List.find?_cons, hpa]
          exact ih2h
        | false =>
          have ih2h := ih2
          simp only [List.find?_cons, hpa] at ih2h
          have har : key a <
              key (xs.foldl (fun best d => if key d > key best then d else best) a) := by
            have := decide_eq_false_iff_not.mp hpa
            exact lt_of_not_le this
          have hfx : decide (key (xs.foldl (fun best d => if key d > key best then d else best) a)
              ≤ key x) = false := by
            rw [decide_eq_false_iff_not, not_le]
            exact lt_of_le_of_lt hxa har
          simp only [List.find?_cons, hpa, hfx]
          exact ih2h

lemma reduce_strict_min {α : Type} (key : α → ℚ) :
    ∀ (l : List α) (a : α),
      (∀ b ∈ a :: l,
        key (l.foldl (fun best d => if key d < key best then d else best) a) ≤ key b)
      ∧ (a :: l).find?
          (fun b =>
            decide (key b ≤ key (l.foldl (fun best d => if key d < key best then d else best) a)))
        = some (l.foldl (fun best d => if key d < key best then d else best) a) := by
  intro l
  induction l with
  | nil =>
    intro a
    constructor
    · intro b hb
      rw [List.mem_singleton] at hb
      rw [hb]
      exact le_refl _
    · simp
  | cons x xs ih =>
    intro a
    rw [List.foldl_cons]
    by_cases hax : key x < key a
    · rw [if_pos hax]
      obtain ⟨ih1, ih2⟩ := ih x
      constructor
      · intro b hb
        rcases List.mem_cons.mp hb with h | h
        · rw [h]
          exact le_trans (ih1 x (List.mem_cons_self _ _)) (le_of_lt hax)
        · exact ih1 b h
      · have hfa : decide (key a
            ≤ key (xs.foldl (fun best d => if key d < key best then d else best) x)) = false := by
          rw [decide_eq_false_iff_not, not_le]
          exact lt_of_le_of_lt (ih1 x (List.mem_cons_self _ _)) hax
        simp only [List.find?_cons, hfa]
        exact ih2
    · rw [if_neg hax]
      obtain ⟨ih1, ih2⟩ := ih a
      have hxa : key a ≤ key x := le_of_not_lt hax
      constructor
      · intro b hb
        rcases List.mem_cons.mp hb with h | h
        · rw [h]
          exact ih1 a (List.mem_cons_self _ _)
        · rcases List.mem_cons.mp h with h' | h'
          · rw [h']
            exact le_trans (ih1 a (List.mem_cons_self _ _)) hxa
          · exact ih1 b (List.mem_cons_of_mem _ h')
      · cases hpa : decide (key a
            ≤ key (xs.foldl (fun best d => if key d < key best then d else best) a)) with
        | true =>
          have ih2h := ih2
          simp only [List.find?_cons, hpa] at ih2h
          simp only [List.find?_cons, hpa]
          exact ih2h
        | false =>
          have ih2h := ih2
          simp only [List.find?_cons, hpa] at ih2h
          have har :
              key (xs.foldl (fun best d => if key d < key best then d else best) a) < key a := by
            have := decide_eq_false_iff_not.mp hpa
            exact lt_of_not_le this
          have hfx : decide (key x
              ≤ key (xs.foldl (fun best d => if key d < key best then d else best) a)) = false := by
            rw [decide_eq_false_iff_not, not_le]
            exact lt_of_lt_of_le har hxa
          simp only [List.find?_cons, hpa, hfx]
          exact ih2h

lemma sorted_head_max {kappa : Type} {x : KeyedSummary kappa} {l : List (KeyedSummary kappa)}
    (hs : List.Sorted speedGE (x :: l)) :
    ∀ t ∈ x :: l, t.averageSpeed ≤ x.averageSpeed := by
  intro t ht
  rcases List.mem_cons.mp ht with h | h
  · rw [h]
  · exact List.rel_of_pairwise_cons hs h

lemma sorted_getLast_min {kappa : Type} :
    ∀ (l : List (KeyedSummary kappa)) (hne : l ≠ []),
      List.Sorted speedGE l → ∀ t ∈ l, (l.getLast hne).averageSpeed ≤ t.averageSpeed := by
  intro l
  induction l with
  | nil => intro hne; exact absurd rfl hne
  | cons x xs ih =>
    intro hne hs t ht
    cases xs with
    | nil =>
      rw [List.mem_singleton] at ht
      rw [ht]
      exact le_refl _
    | cons y ys =>
      have hxs : (y :: ys) ≠ [] := List.cons_ne_nil _ _
      have hlast : (x :: y :: ys).getLast hne = (y :: ys).getLast hxs :=
        List.getLast_cons hxs
      rcases List.mem_cons.mp ht with h | h
      · rw [h, hlast]
        exact List.rel_of_pairwise_cons hs (List.getLast_mem hxs)
      · rw [hlast]
        exact ih hxs hs.of_cons t h

/-- Claim C1 counterexample: a row whose speed column is the empty string
is NOT dropped by any of the three mappers — JavaScript's `Number("")` is
`0`, which is finite, so the row is accepted with speed 0, contradicting
the claim that the empty string coerces to NaN and is rejected. -/
theorem claim_C1_counterexample :
    parseDietRow { name := some "cheetah", speed := some "", diet := some "herbivore" } =
      some { name := "cheetah", speed := 0, diet := .herbivore } ∧
    parseWeightRow { name := some "cheetah", speed := some "", body_mass := some "50" } =
      some { name := "cheetah", speed := 0, bodyMass := 50 } ∧
    parseEndangermentRow
        { name := some "cheetah", speed := some "", endangerment := some "Endangered" } =
      some { name := "cheetah", speed := 0, endangerment := .endangered } := by
  refine ⟨by decide, ?_, ?_⟩
  · simp +decide [parseWeightRow, jsNumberOfField, jsStringToNumber, jsTrim,
      parseUnsignedDec, parseExponentPart, digitsVal, applyExp]
  · simp +decide [parseEndangermentRow, jsNumberOfField, jsStringToNumber, jsTrim,
      parseUnsignedDec, parseExponentPart, digitsVal, applyExp, statusFromString,
      statusToString, ENDANGERMENT_ORDER]

/-- Claim C1 (amended): every row whose speed column does not coerce to a
finite number — such as the non-numeric string "abc" — is dropped by each
of the three dataset mappers; but the empty string coerces to 0 (not
NaN), so a row with an empty speed column and otherwise valid fields is
accepted with speed 0. -/
theorem claim_C1_amended :
    (∀ row : RawDietRow, numberIsFinite (jsNumberOfField row.speed) = false →
      parseDietRow row = none)
    ∧ (∀ row : RawWeightRow, numberIsFinite (jsNumberOfField row.speed) = false →
      parseWeightRow row = none)
    ∧ (∀ row : RawEndangermentRow, numberIsFinite (jsNumberOfField row.speed) = false →
      parseEndangermentRow row = none)
    ∧ jsStringToNumber "abc" = .nan
    ∧ jsStringToNumber "" = .fin 0
    ∧ parseDietRow { name := some "zebra", speed := some "abc", diet := some "herbivore" } = none
    ∧ parseDietRow { name := some "zebra", speed := some "", diet := some "herbivore" } =
        some { name := "zebra", speed := 0, diet := .herbivore } := by
  refine ⟨?_, ?_, ?_, by decide, by decide, by decide, by decide⟩
  · intro row hfin
    cases hn : jsNumberOfField row.speed with
    | fin q => rw [hn] at hfin; simp [numberIsFinite] at hfin
    | nan => simp [parseDietRow, hn]
    | inf => simp [parseDietRow, hn]
    | negInf => simp [parseDietRow, hn]
  · intro row hfin
    cases hn : jsNumberOfField row.speed with
    | fin q => rw [hn] at hfin; simp [numberIsFinite] at hfin
    | nan => simp [parseWeightRow, hn]
    | inf => simp [parseWeightRow, hn]
    | negInf => simp [parseWeightRow, hn]
  · intro row hfin
    cases hn : jsNumberOfField row.speed with
    | fin q => rw [hn] at hfin; simp [numberIsFinite] at hfin
    | nan => simp [parseEndangermentRow, hn]
    | inf => simp [parseEndangermentRow, hn]
    | negInf => simp [parseEndangermentRow, hn]

/-- Claim C1 witness: the amended theorem applied to a concrete row with
a non-numeric speed column. -/
theorem claim_C1_witness :
    numberIsFinite (jsNumberOfField (some "xyz")) = false ∧
    parseDietRow { name := some "impala", speed := some "xyz", diet := some "omnivore" } = none :=
  ⟨by decide, claim_C1_amended.1 _ (by decide)⟩

/-- Claim C2 counterexample: with the diet and endangerment fetches
succeeding (the diet one with a valid record) and the weight fetch
failing, `Promise.all` rejects, the `catch` branch runs, and NO record
set is committed — the successful diet dataset's validated record is not
in the resulting state, contradicting the claim that the other two
datasets are still committed and their charts render from that data. -/
theorem claim_C2_counterexample :
    parseDietRow { name := some "cheetah", speed := some "98", diet := some "carnivore" } =
      some { name := "cheetah", speed := 98, diet := .carnivore } ∧
    loadAllChartsData initialChartsState
        { dietRows := .ok [{ name := some "cheetah", speed := some "98", diet := some "carnivore" }],
          weightRows := .error "fetch failed",
          endangermentRows := .ok [] } =
      { dietData := [], weightData := [], endangermentData := [],
        loadingError := some "Could not load chart data: fetch failed" } := by
  constructor
  · simp +decide [parseDietRow, jsNumberOfField, jsStringToNumber, jsTrim, jsToLower,
      parseUnsignedDec, parseExponentPart, digitsVal, applyExp, dietFromString, dietToString,
      DIET_ORDER]
  · simp [loadAllChartsData, promiseAll3, initialChartsState, Except.map]

/-- Claim C2 (amended): the three fetches are joined with `Promise.all`,
so commitment is all-or-nothing: when all three succeed, all three
validated record sets are committed and the error is cleared; when any
one fails, none of the three record sets changes (each keeps its previous
— initially empty — value, so the other two charts do not render from
their successful data) and the single global error banner is set. -/
theorem claim_C2_amended (state : ChartsState) (fetched : RawDatasets) :
    (∀ dietRaw weightRaw endangermentRaw,
      fetched.dietRows = .ok dietRaw → fetched.weightRows = .ok weightRaw →
      fetched.endangermentRows = .ok endangermentRaw →
      loadAllChartsData state fetched =
        { dietData := dietRaw.filterMap parseDietRow,
          weightData := weightRaw.filterMap parseWeightRow,
          endangermentData := endangermentRaw.filterMap parseEndangermentRow,
          loadingError := none })
    ∧ (((∃ m, fetched.dietRows = .error m) ∨ (∃ m, fetched.weightRows = .error m) ∨
          (∃ m, fetched.endangermentRows = .error m)) →
        (loadAllChartsData state fetched).dietData = state.dietData ∧
        (loadAllChartsData state fetched).weightData = state.weightData ∧
        (loadAllChartsData state fetched).endangermentData = state.endangermentData ∧
        ∃ m, (loadAllChartsData state fetched).loadingError =
          some ("Could not load chart data: " ++ m)) := by
  constructor
  · intro dietRaw weightRaw endangermentRaw hd hw he
    simp [loadAllChartsData, hd, hw, he, Except.map, promiseAll3]
  · intro herr
    rcases hd : fetched.dietRows with md | dietRaw <;>
      rcases hw : fetched.weightRows with mw | weightRaw <;>
        rcases he : fetched.endangermentRows with me | endangermentRaw
    · exact ⟨by simp [loadAllChartsData, hd, hw, he, Except.map, promiseAll3],
        by simp [loadAllChartsData, hd, hw, he, Except.map, promiseAll3],
        by simp [loadAllChartsData, hd, hw, he, Except.map, promiseAll3],
        md, by simp [loadAllChartsData, hd, hw, he, Except.map, promiseAll3]⟩
    · exact ⟨by simp [loadAllChartsData, hd, hw, he, Except.map, promiseAll3],
        by simp [loadAllChartsData, hd, hw, he, Except.map, promiseAll3],
        by simp [loadAllChartsData, hd, hw, he, Except.map, promiseAll3],
        md, by simp [loadAllChartsData, hd, hw, he, Except.map, promiseAll3]⟩
    · exact ⟨by simp [loadAllChartsData, hd, hw, he, Except.map, promiseAll3],
        by simp [loadAllChartsData, hd, hw, he, Except.map, promiseAll3],
        by simp [loadAllChartsData, hd, hw, he, Except.map, promiseAll3],
        md, by simp [loadAllChartsData, hd, hw, he, Except.map, promiseAll3]⟩
    · exact ⟨by simp [loadAllChartsData, hd, hw, he, Except.map, promiseAll3],
        by simp [loadAllChartsData, hd, hw, he, Except.map, promiseAll3],
        by simp [loadAllChartsData, hd, hw, he, Except.map, promiseAll3],
        md, by simp [loadAllChartsData, hd, hw, he, Except.map, promiseAll3]⟩
    · exact ⟨by simp [loadAllChartsData, hd, hw, he, Except.map, promiseAll3],
        by simp [loadAllChartsData, hd, hw, he, Except.map, promiseAll3],
        by simp [loadAllChartsData, hd, hw, he, Except.map, promiseAll3],
        mw, by simp [loadAllChartsData, hd, hw, he, Except.map, promiseAll3]⟩
    · exact ⟨by simp [loadAllChartsData, hd, hw, he, Except.map, promiseAll3],
        by simp [loadAllChartsData, hd, hw, he, Except.map, promiseAll3],
        by simp [loadAllChartsData, hd, hw, he, Except.map, promiseAll3],
        mw, by simp [loadAllChartsData, hd, hw, he, Except.map, promiseAll3]⟩
    · exact ⟨by simp [loadAllChartsData, hd, hw, he, Except.map, promiseAll3],
        by simp [loadAllChartsData, hd, hw, he, Except.map, promiseAll3],
        by simp [loadAllChartsData, hd, hw, he, Except.map, promiseAll3],
        me, by simp [loadAllChartsData, hd, hw, he, Except.map, promiseAll3]⟩
    · rcases herr with ⟨m, hm⟩ | ⟨m, hm⟩ | ⟨m, hm⟩ <;> simp_all

/-- Claim C2 witness: the amended theorem applied to a concrete failing
load cycle. -/
theorem claim_C2_witness :
    (loadAllChartsData initialChartsState
      { dietRows := .ok [], weightRows := .error "boom", endangermentRows := .ok [] }).dietData
      = [] ∧
    ∃ m, (loadAllChartsData initialChartsState
      { dietRows := .ok [], weightRows := .error "boom", endangermentRows := .ok [] }).loadingError
      = some ("Could not load chart data: " ++ m) := by
  have h := (claim_C2_amended initialChartsState
    { dietRows := .ok [], weightRows := .error "boom", endangermentRows := .ok [] }).2
    (Or.inr (Or.inl ⟨"boom", rfl⟩))
  exact ⟨h.1, h.2.2.2⟩

/-- Claim C3 (confirmed): for every non-empty validated endangerment
record set, the summary rows come out exactly in the canonical severity
order restricted to the statuses present, and the output order is
invariant under permuting the input records. -/
theorem claim_C3 (data : List EndangermentDatum) (hne : data ≠ []) :
    (endangermentChartData data).map (fun row => row.status) =
      ENDANGERMENT_ORDER.filter (fun st => data.any (fun d => d.endangerment == st)) ∧
    ∀ data' : List EndangermentDatum, data.Perm data' →
      (endangermentChartData data').map (fun row => row.status) =
        (endangermentChartData data).map (fun row => row.status) := by
  refine ⟨endangermentChartData_statuses data, ?_⟩
  intro data' hperm
  rw [endangermentChartData_statuses, endangermentChartData_statuses]
  apply List.filter_congr
  intro st _
  rw [Bool.eq_iff_iff, List.any_eq_true, List.any_eq_true]
  constructor
  · rintro ⟨x, hx, hpx⟩
    exact ⟨x, hperm.mem_iff.mpr hx, hpx⟩
  · rintro ⟨x, hx, hpx⟩
    exact ⟨x, hperm.mem_iff.mp hx, hpx⟩

/-- Claim C3 witness: with statuses arriving as Extinct then Least
Concern, the chart rows come out Least Concern then Extinct (canonical
severity order, not input order). -/
theorem claim_C3_witness :
    ([{ name := "dodo", speed := 10, endangerment := .extinct },
      { name := "hare", speed := 60, endangerment := .leastConcern }] ≠
        ([] : List EndangermentDatum)) ∧
    (endangermentChartData
        [{ name := "dodo", speed := 10, endangerment := .extinct },
         { name := "hare", speed := 60, endangerment := .leastConcern }]).map
      (fun row => row.status) = [.leastConcern, .extinct] := by
  refine ⟨by simp, ?_⟩
  rw [(claim_C3
    [{ name := "dodo", speed := 10, endangerment := .extinct },
     { name := "hare", speed := 60, endangerment := .leastConcern }] (by simp)).1]
  decide

/-- Claim C8 (confirmed): for any non-empty weight record set the log
x-domain's lower bound is `max(min(bodyMass), 0.1)`, the upper bound is
`max(bodyMass)` when that strictly exceeds the lower bound and
`lowerBound * 10` otherwise, and the upper bound is always strictly
greater than the lower bound; in particular for body masses `[5, 5, 5]`
the domain is `(5, 50)`. -/
theorem claim_C8 :
    (∀ (d : WeightDatum) (rest : List WeightDatum),
      ∃ lo hi, weightLogDomain (d :: rest) = some (lo, hi) ∧
        lo = max (((d :: rest).map (fun datum => datum.bodyMass)).foldl min d.bodyMass) (1 / 10) ∧
        hi = (if ((d :: rest).map (fun datum => datum.bodyMass)).foldl max d.bodyMass > lo
              then ((d :: rest).map (fun datum => datum.bodyMass)).foldl max d.bodyMass
              else lo * 10) ∧
        lo < hi)
    ∧ weightLogDomain
        [{ name := "a", speed := 30, bodyMass := 5 }, { name := "b", speed := 20, bodyMass := 5 },
         { name := "c", speed := 10, bodyMass := 5 }] = some (5, 50) := by
  constructor
  · intro d rest
    refine ⟨_, _, rfl, rfl, rfl, ?_⟩
    have hpos : (0 : ℚ) <
        max (((d :: rest).map (fun datum => datum.bodyMass)).foldl min d.bodyMass) (1 / 10) :=
      lt_of_lt_of_le (by norm_num) (le_max_right _ _)
    by_cases hgt : ((d :: rest).map (fun datum => datum.bodyMass)).foldl max d.bodyMass >
        max (((d :: rest).map (fun datum => datum.bodyMass)).foldl min d.bodyMass) (1 / 10)
    · rw [if_pos hgt]
      exact hgt
    · rw [if_neg hgt]
      nlinarith
  · simp only [weightLogDomain, List.map_cons, List.map_nil, List.foldl_cons, List.foldl_nil,
      min_self, max_self]
    norm_num

/-- Claim C9 counterexample: the diet chart's aggregation is built over
the whole fixed `DIET_ORDER`, so a single-herbivore record set still
yields summary rows for omnivore and carnivore with count 0 — the
aggregator does emit summary rows for groups with 0 members,
contradicting the claim for the diet grouping key. -/
theorem claim_C9_counterexample :
    (dietChartSummaries [{ name := "gazelle", speed := 70, diet := .herbivore }]).map
        (fun summary => summary.count) = [1, 0, 0] ∧
    ({ diet := Diet.omnivore, averageSpeed := 0, count := 0 } : DietSummary) ∈
      dietChartSummaries [{ name := "gazelle", speed := 70, diet := .herbivore }] := by
  constructor
  · simp +decide [dietChartSummaries, DIET_ORDER]
  · simp +decide [dietChartSummaries, DIET_ORDER]

/-- Claim C9 (amended): the endangerment chart's aggregator emits exactly
one summary row per status with at least one member (none for absent
statuses), with `averageSpeed = sum/count` and `count ≥ 1`; the diet
chart's aggregator instead emits one row per diet of the fixed 3-diet
order even when the group is empty, but a mean over zero elements is
never computed: an empty group's `averageSpeed` is the literal 0 and
division happens only when `count ≥ 1`. -/
theorem claim_C9_amended :
    (∀ data : List EndangermentDatum,
      (endangermentChartData data).map (fun row => row.status) =
        ENDANGERMENT_ORDER.filter (fun st => data.any (fun d => d.endangerment == st)) ∧
      ∀ row ∈ endangermentChartData data,
        1 ≤ row.count ∧ row.count = countStatus data row.status ∧
        row.averageSpeed = sumSpeed data row.status / countStatus data row.status)
    ∧ (∀ data : List AnimalDatum,
      (dietChartSummaries data).map (fun summary => summary.diet) = DIET_ORDER ∧
      ∀ summary ∈ dietChartSummaries data,
        summary.count = (data.filter (fun datum => datum.diet == summary.diet)).length ∧
        (summary.count ≠ 0 → summary.averageSpeed =
          ((data.filter (fun datum => datum.diet == summary.diet)).map
            (fun datum => datum.speed)).sum / summary.count) ∧
        (summary.count = 0 → summary.averageSpeed = 0)) := by
  constructor
  · intro data
    refine ⟨endangermentChartData_statuses data, ?_⟩
    intro row hrow
    rw [endangermentChartData_eq] at hrow
    obtain ⟨st, hstmem, hrw⟩ := List.mem_map.mp hrow
    have hz : countStatus data st ≠ 0 := by
      have := List.of_mem_filter hstmem
      simpa using this
    rw [← hrw]
    exact ⟨Nat.one_le_iff_ne_zero.mpr hz, rfl, rfl⟩
  · intro data
    constructor
    · rw [dietChartSummaries, List.map_map]
      exact List.map_id DIET_ORDER
    · intro summary hsummary
      rw [dietChartSummaries] at hsummary
      obtain ⟨diet, hdmem, hrw⟩ := List.mem_map.mp hsummary
      rw [← hrw]
      refine ⟨rfl, ?_, ?_⟩
      · intro hnz
        simp only [if_pos hnz]
      · intro hz
        have hz0 : (List.filter (fun datum => datum.diet == diet) data).length = 0 := hz
        show (if (List.filter (fun datum => datum.diet == diet) data).length ≠ 0 then
            ((List.filter (fun datum => datum.diet == diet) data).map
              (fun datum => datum.speed)).sum /
              ((List.filter (fun datum => datum.diet == diet) data).length : ℚ)
          else 0) = 0
        rw [hz0]
        simp

/-- Claim C9 witness: the amended theorem applied to concrete one-record
datasets. -/
theorem claim_C9_witness :
    (endangermentChartData [{ name := "dodo", speed := 10, endangerment := .extinct }]).map
        (fun row => row.status) =
      ENDANGERMENT_ORDER.filter (fun st =>
        ([{ name := "dodo", speed := 10, endangerment := .extinct }] :
            List EndangermentDatum).any
          (fun d => d.endangerment == st)) ∧
    (dietChartSummaries [{ name := "gazelle", speed := 70, diet := .herbivore }]).map
      (fun summary => summary.diet) = DIET_ORDER :=
  ⟨(claim_C9_amended.1 [{ name := "dodo", speed := 10, endangerment := .extinct }]).1,
   (claim_C9_amended.2 [{ name := "gazelle", speed := 70, diet := .herbivore }]).1⟩

/-- Claim C10 (confirmed): none of the three mappers imposes a lower
bound on speed: a row whose speed column coerces to any finite rational —
including 0 and negative values — is accepted by the diet, weight and
endangerment mappers whenever the row's other fields are valid, while all
three charts' linear y-domains always start at 0 (so a negative speed
lies below the plotted range). -/
theorem claim_C10 :
    (∀ (row : RawDietRow) (q : ℚ) (d : Diet),
      jsNumberOfField row.speed = .fin q →
      (row.name.map jsTrim).getD "" ≠ "" →
      dietFromString ((row.diet.map (fun s => jsToLower (jsTrim s))).getD "") = some d →
      parseDietRow row =
        some { name := (row.name.map jsTrim).getD "", speed := q, diet := d })
    ∧ (∀ (row : RawWeightRow) (q m : ℚ),
      jsNumberOfField row.speed = .fin q →
      (row.name.map jsTrim).getD "" ≠ "" →
      jsNumberOfField row.body_mass = .fin m →
      ¬m ≤ 0 →
      parseWeightRow row =
        some { name := (row.name.map jsTrim).getD "", speed := q, bodyMass := m })
    ∧ (∀ (row : RawEndangermentRow) (q : ℚ) (st : EndangermentStatus),
      jsNumberOfField row.speed = .fin q →
      (row.name.map jsTrim).getD "" ≠ "" →
      statusFromString ((row.endangerment.map jsTrim).getD "") = some st →
      parseEndangermentRow row =
        some { name := (row.name.map jsTrim).getD "", speed := q, endangerment := st })
    ∧ (∀ data : List AnimalDatum, (dietYDomain data).1 = 0)
    ∧ (∀ data : List WeightDatum, (weightYDomain data).1 = 0)
    ∧ (∀ data : List EndangermentDatum, (endangermentYDomain data).1 = 0) := by
  refine ⟨?_, ?_, ?_, fun data => rfl, fun data => rfl, fun data => rfl⟩
  · intro row q d hq hname hdiet
    simp only [parseDietRow, hq, hdiet]
    rw [if_neg hname]
  · intro row q m hq hname hm hmpos
    simp only [parseWeightRow, hq, hm]
    rw [if_neg hname, if_neg hmpos]
  · intro row q st hq hname hst
    simp only [parseEndangermentRow, hq, hst]
    rw [if_neg hname]

/-- Claim C10 witness: a diet row with speed "-5", a weight row with
speed "0" and an endangerment row with speed "-5" are all accepted, and
all three charts' y-domains start at 0. -/
theorem claim_C10_witness :
    parseDietRow { name := some "snail", speed := some "-5", diet := some "herbivore" } =
      some { name := "snail", speed := -5, diet := .herbivore } ∧
    parseWeightRow { name := some "snail", speed := some "0", body_mass := some "5" } =
      some { name := "snail", speed := 0, bodyMass := 5 } ∧
    parseEndangermentRow
        { name := some "snail", speed := some "-5", endangerment := some "Endangered" } =
      some { name := "snail", speed := -5, endangerment := .endangered } ∧
    (dietYDomain [{ name := "snail", speed := -5, diet := .herbivore }]).1 = 0 ∧
    (weightYDomain [{ name := "snail", speed := 0, bodyMass := 5 }]).1 = 0 ∧
    (endangermentYDomain
      [{ name := "snail", speed := -5, endangerment := .endangered }]).1 = 0 := by
  have h1 := claim_C10.1 { name := some "snail", speed := some "-5", diet := some "herbivore" }
    (-5) .herbivore
    (by simp +decide [jsNumberOfField, jsStringToNumber, jsTrim, parseUnsignedDec,
      parseExponentPart, digitsVal, applyExp])
    (by decide) (by decide)
  have h2 := claim_C10.2.1 { name := some "snail", speed := some "0", body_mass := some "5" }
    0 5
    (by simp +decide [jsNumberOfField, jsStringToNumber, jsTrim, parseUnsignedDec,
      parseExponentPart, digitsVal, applyExp])
    (by decide)
    (by simp +decide [jsNumberOfField, jsStringToNumber, jsTrim, parseUnsignedDec,
      parseExponentPart, digitsVal, applyExp])
    (by decide)
  have h3 := claim_C10.2.2.1
    { name := some "snail", speed := some "-5", endangerment := some "Endangered" }
    (-5) .endangered
    (by simp +decide [jsNumberOfField, jsStringToNumber, jsTrim, parseUnsignedDec,
      parseExponentPart, digitsVal, applyExp])
    (by decide) (by decide)
  exact ⟨h1, h2, h3, claim_C10.2.2.2.1 _, claim_C10.2.2.2.2.1 _, claim_C10.2.2.2.2.2 _⟩

/-- Claim C4 (confirmed): the correlation is reported as absent exactly
when there are fewer than 2 samples or either variable has zero variance
(sum of squared deviations 0); when defined, the label is weak positive
for r above 0.2, weak negative below −0.2, very weak in between; and the
numeric r text is appended only when the correlation is defined. -/
theorem claim_C4 :
    (∀ xs ys : List ℚ, xs.length = ys.length →
      (pearsonParts xs ys = none ↔
        xs.length < 2 ∨ centeredSumSq xs = 0 ∨ centeredSumSq ys = 0))
    ∧ trendLabel none = "no measurable mass-speed trend"
    ∧ (∀ r : ℚ,
        ((0.2 : ℚ) < r → trendLabel (some r) = "a weak positive mass-speed trend")
        ∧ (r < -0.2 → trendLabel (some r) = "a weak negative mass-speed trend")
        ∧ (-0.2 ≤ r → r ≤ 0.2 → trendLabel (some r) = "a very weak mass-speed trend"))
    ∧ correlationText none = ""
    ∧ (∀ r : ℚ, correlationText (some r) ≠ "") := by
  refine ⟨?_, rfl, ?_, rfl, ?_⟩
  · intro xs ys hlen
    by_cases h2 : xs.length < 2
    · have hcond : (xs.length ≠ ys.length ∨ xs.length < 2) := Or.inr h2
      simp only [pearsonParts, if_pos hcond]
      simp [h2]
    · have hcond : ¬(xs.length ≠ ys.length ∨ xs.length < 2) := by
        push_neg
        exact ⟨hlen, not_lt.mp h2⟩
      simp only [pearsonParts, if_neg hcond]
      by_cases hv : centeredSumSq xs = 0 ∨ centeredSumSq ys = 0
      · simp only [if_pos hv]
        simp [h2, hv]
      · simp only [if_neg hv]
        rw [not_or] at hv
        simp [h2, hv.1, hv.2]
  · intro r
    refine ⟨?_, ?_, ?_⟩
    · intro h
      simp only [trendLabel]
      rw [if_pos h]
    · intro h
      have hnp : ¬((0.2 : ℚ) < r) := by linarith
      simp only [trendLabel]
      rw [if_neg hnp, if_pos h]
    · intro h1 h2
      simp only [trendLabel]
      rw [if_neg (not_lt.mpr h2), if_neg (not_lt.mpr h1)]
  · intro r h
    have h0 : (" (r=" ++ toFixed2 r ++ " on log mass)").length = 0 := by
      rw [show (" (r=" ++ toFixed2 r ++ " on log mass)") = correlationText (some r) from rfl, h]
      rfl
    rw [String.length_append, String.length_append] at h0
    have h4 : (" (r=").length = 4 := rfl
    omega

/-- Claim C4 witness: the theorem applied at a zero-variance sample and
at r = 1. -/
theorem claim_C4_witness :
    [(1 : ℚ), 1].length = [(1 : ℚ), 2].length ∧
    pearsonParts [(1 : ℚ), 1] [(1 : ℚ), 2] = none ∧
    trendLabel (some 1) = "a weak positive mass-speed trend" := by
  refine ⟨rfl, ?_, (claim_C4.2.2.1 1).1 (by norm_num)⟩
  exact (claim_C4.1 [(1 : ℚ), 1] [(1 : ℚ), 2] rfl).mpr
    (Or.inr (Or.inl (by simp [centeredSumSq, listMean])))

lemma dietInsightSummaries_keys (dietData : List AnimalDatum) :
    (dietInsightSummaries dietData).map (fun summary => summary.key) =
      DIET_ORDER.filter (fun diet => dietData.any (fun datum => datum.diet == diet)) := by
  rw [dietInsightSummaries, List.filter_map, List.map_map]
  have hid : ((fun summary => summary.key) ∘ fun diet =>
      ({ key := diet,
         count := (dietData.filter (fun datum => datum.diet == diet)).length,
         averageSpeed :=
           if (dietData.filter (fun datum => datum.diet == diet)).length ≠ 0 then
             calculateMeanSpeed (fun datum => datum.speed)
               (dietData.filter (fun datum => datum.diet == diet))
           else 0 } : KeyedSummary Diet)) = id := rfl
  rw [hid, List.map_id]
  apply List.filter_congr
  intro diet _
  show decide (0 < (dietData.filter (fun datum => datum.diet == diet)).length) =
    dietData.any (fun datum => datum.diet == diet)
  rw [Bool.eq_iff_iff, decide_eq_true_eq, List.any_eq_true]
  constructor
  · intro hpos
    obtain ⟨x, hx⟩ := List.exists_mem_of_length_pos hpos
    exact ⟨x, (List.mem_filter.mp hx).1, (List.mem_filter.mp hx).2⟩
  · rintro ⟨x, hx, hpx⟩
    exact List.length_pos.mpr
      (List.ne_nil_of_mem (List.mem_filter.mpr ⟨hx, hpx⟩))

lemma dietInsightSummaries_length (dietData : List AnimalDatum) :
    (dietInsightSummaries dietData).length =
      (DIET_ORDER.filter (fun diet => dietData.any (fun datum => datum.diet == diet))).length := by
  rw [← dietInsightSummaries_keys, List.length_map]

lemma statusInsightSummaries_keys (endangermentData : List EndangermentDatum) :
    (statusInsightSummaries endangermentData).map (fun summary => summary.key) =
      ENDANGERMENT_ORDER.filter (fun status =>
        endangermentData.any (fun datum => datum.endangerment == status)) := by
  rw [statusInsightSummaries, List.filter_map, List.map_map]
  have hid : ((fun summary => summary.key) ∘ fun status =>
      ({ key := status,
         count := (endangermentData.filter (fun datum => datum.endangerment == status)).length,
         averageSpeed :=
           if (endangermentData.filter (fun datum => datum.endangerment == status)).length ≠ 0 then
             calculateMeanSpeed (fun datum => datum.speed)
               (endangermentData.filter (fun datum => datum.endangerment == status))
           else 0 } : KeyedSummary EndangermentStatus)) = id := rfl
  rw [hid, List.map_id]
  apply List.filter_congr
  intro status _
  show decide (0 < (endangermentData.filter (fun datum => datum.endangerment == status)).length) =
    endangermentData.any (fun datum => datum.endangerment == status)
  rw [Bool.eq_iff_iff, decide_eq_true_eq, List.any_eq_true]
  constructor
  · intro hpos
    obtain ⟨x, hx⟩ := List.exists_mem_of_length_pos hpos
    exact ⟨x, (List.mem_filter.mp hx).1, (List.mem_filter.mp hx).2⟩
  · rintro ⟨x, hx, hpx⟩
    exact List.length_pos.mpr
      (List.ne_nil_of_mem (List.mem_filter.mpr ⟨hx, hpx⟩))

lemma dietInsight_isSome (dietData : List AnimalDatum) :
    (dietInsight dietData).isSome = true ↔ 2 ≤ (dietInsightSummaries dietData).length := by
  simp only [dietInsight]
  by_cases hlen : dietData.length ≠ 0
  · rw [if_pos hlen]
    by_cases h2 : 2 ≤ (dietInsightSummaries dietData).length
    · rw [if_pos h2]
      cases hs : List.insertionSort speedGE (dietInsightSummaries dietData) with
      | nil =>
        exfalso
        have hlens := List.length_insertionSort speedGE (dietInsightSummaries dietData)
        rw [hs] at hlens
        simp at hlens
        omega
      | cons fastestDiet restSorted => simp [h2]
    · rw [if_neg h2]
      simp [h2]
  · rw [if_neg hlen]
    have hdata : dietData = [] := List.length_eq_zero.mp (not_ne_iff.mp hlen)
    subst hdata
    have hnil : dietInsightSummaries [] = [] := rfl
    simp [hnil]

lemma weightInsight_isSome (logTen : ℚ → ℚ) (weightData : List WeightDatum) :
    (weightInsight logTen weightData).isSome = true ↔ 2 ≤ weightData.length := by
  cases weightData with
  | nil => simp [weightInsight]
  | cons first rest =>
    by_cases h2 : 2 ≤ (first :: rest).length
    · simp [weightInsight, h2]
    · simp [weightInsight, h2]

lemma endangermentInsight_isSome (endangermentData : List EndangermentDatum) :
    (endangermentInsight endangermentData).isSome = true ↔
      2 ≤ (analysisStatusSummaries endangermentData).length := by
  simp only [endangermentInsight]
  by_cases hlen : endangermentData.length ≠ 0
  · rw [if_pos hlen]
    by_cases h2 : 2 ≤ (analysisStatusSummaries endangermentData).length
    · rw [if_pos h2]
      cases hs : List.insertionSort speedGE (analysisStatusSummaries endangermentData) with
      | nil =>
        exfalso
        have hlens := List.length_insertionSort speedGE (analysisStatusSummaries endangermentData)
        rw [hs] at hlens
        simp at hlens
        omega
      | cons fastestStatus restSorted => simp [h2]
    · rw [if_neg h2]
      simp [h2]
  · rw [if_neg hlen]
    have hdata : endangermentData = [] := List.length_eq_zero.mp (not_ne_iff.mp hlen)
    subst hdata
    have hnil : analysisStatusSummaries [] = [] := rfl
    simp [hnil]

/-- Claim C6 (confirmed): the diet insight is emitted iff at least 2
distinct diets have at least one validated member, and the weight insight
is emitted iff the weight record set has at least 2 records — regardless
of the diet data (the third conjunct quantifies over arbitrary diet and
endangerment data). -/
theorem claim_C6 :
    (∀ dietData : List AnimalDatum,
      (dietInsight dietData).isSome = true ↔
        2 ≤ (DIET_ORDER.filter
          (fun diet => dietData.any (fun datum => datum.diet == diet))).length)
    ∧ (∀ (logTen : ℚ → ℚ) (weightData : List WeightDatum),
      (weightInsight logTen weightData).isSome = true ↔ 2 ≤ weightData.length)
    ∧ (∀ (logTen : ℚ → ℚ) (dietData : List AnimalDatum) (weightData : List WeightDatum)
        (endangermentData : List EndangermentDatum),
      (∃ w, InsightPoint.weightPoint w ∈
          analysisPoints logTen dietData weightData endangermentData) ↔
        2 ≤ weightData.length) := by
  refine ⟨?_, ?_, ?_⟩
  · intro dietData
    rw [dietInsight_isSome, dietInsightSummaries_length]
  · intro logTen weightData
    exact weightInsight_isSome logTen weightData
  · intro logTen dietData weightData endangermentData
    rw [← weightInsight_isSome logTen weightData]
    rcases hd : dietInsight dietData with _ | ⟨df, ds, dg⟩ <;>
      rcases hwi : weightInsight logTen weightData with _ | w' <;>
        rcases he : endangermentInsight endangermentData with _ | ⟨ef, es, eg⟩ <;>
          simp [analysisPoints, hd, hwi, he]

/-- Claim C6 witness: with a single diet present no diet insight is
emitted, while two weight records do produce a weight insight. -/
theorem claim_C6_witness :
    (dietInsight [{ name := "gazelle", speed := 70, diet := .herbivore }]).isSome = false ∧
    (weightInsight (fun q => q)
      [{ name := "a", speed := 1, bodyMass := 1 },
       { name := "b", speed := 2, bodyMass := 2 }]).isSome = true := by
  constructor
  · rw [Bool.eq_false_iff]
    intro ht
    have h2 := (claim_C6.1 [{ name := "gazelle", speed := 70, diet := .herbivore }]).mp ht
    revert h2
    decide
  · exact (claim_C6.2.1 (fun q => q)
      [{ name := "a", speed := 1, bodyMass := 1 },
       { name := "b", speed := 2, bodyMass := 2 }]).mpr (by decide)

/-- Claim C5 (confirmed): the endangerment insight is computed over the
present statuses with count at least 5 when at least 2 such statuses
exist, otherwise over all present statuses; it is emitted iff the chosen
set has at least 2 statuses; and it reports the summaries (status, mean,
count) attaining the maximum and minimum mean speed over the chosen set,
together with their gap. -/
theorem claim_C5 (endangermentData : List EndangermentDatum) :
    ((endangermentInsight endangermentData).isSome = true ↔
      2 ≤ (analysisStatusSummaries endangermentData).length)
    ∧ analysisStatusSummaries endangermentData =
        (if 2 ≤ ((statusInsightSummaries endangermentData).filter
            (fun summary => decide (5 ≤ summary.count))).length
         then (statusInsightSummaries endangermentData).filter
            (fun summary => decide (5 ≤ summary.count))
         else statusInsightSummaries endangermentData)
    ∧ (statusInsightSummaries endangermentData).map (fun summary => summary.key) =
        ENDANGERMENT_ORDER.filter (fun status =>
          endangermentData.any (fun datum => datum.endangerment == status))
    ∧ (∀ fastest slowest gap,
        endangermentInsight endangermentData = some (fastest, slowest, gap) →
          fastest ∈ analysisStatusSummaries endangermentData ∧
          slowest ∈ analysisStatusSummaries endangermentData ∧
          (∀ t ∈ analysisStatusSummaries endangermentData,
            t.averageSpeed ≤ fastest.averageSpeed) ∧
          (∀ t ∈ analysisStatusSummaries endangermentData,
            slowest.averageSpeed ≤ t.averageSpeed) ∧
          gap = fastest.averageSpeed - slowest.averageSpeed) := by
  refine ⟨endangermentInsight_isSome endangermentData, rfl,
    statusInsightSummaries_keys endangermentData, ?_⟩
  intro fastest slowest gap hsome
  simp only [endangermentInsight] at hsome
  by_cases hlen : endangermentData.length ≠ 0
  · rw [if_pos hlen] at hsome
    by_cases h2 : 2 ≤ (analysisStatusSummaries endangermentData).length
    · rw [if_pos h2] at hsome
      cases hs : List.insertionSort speedGE (analysisStatusSummaries endangermentData) with
      | nil =>
        rw [hs] at hsome
        exact absurd hsome (by simp)
      | cons f rest =>
        rw [hs] at hsome
        simp only [Option.some.injEq, Prod.mk.injEq] at hsome
        obtain ⟨hf, hsl, hg⟩ := hsome
        have hsorted : List.Sorted speedGE (f :: rest) := by
          rw [← hs]
          exact List.sorted_insertionSort speedGE _
        have hperm : (f :: rest).Perm (analysisStatusSummaries endangermentData) := by
          rw [← hs]
          exact List.perm_insertionSort speedGE _
        refine ⟨?_, ?_, ?_, ?_, ?_⟩
        · rw [← hf]
          exact hperm.mem_iff.mp (List.mem_cons_self _ _)
        · rw [← hsl]
          exact hperm.mem_iff.mp (List.getLast_mem (List.cons_ne_nil _ _))
        · intro t ht
          rw [← hf]
          exact sorted_head_max hsorted t (hperm.mem_iff.mpr ht)
        · intro t ht
          rw [← hsl]
          exact sorted_getLast_min (f :: rest) (List.cons_ne_nil _ _) hsorted t
            (hperm.mem_iff.mpr ht)
        · rw [← hg, ← hf, ← hsl]
    · rw [if_neg h2] at hsome
      exact absurd hsome (by simp)
  · rw [if_neg hlen] at hsome
    exact absurd hsome (by simp)

/-- Claim C5 witness: two statuses with one record each — neither reaches
count 5, so the fallback set (all present statuses) is used, and the
insight reports the faster status, the slower status and the gap. -/
theorem claim_C5_witness :
    endangermentInsight
        [{ name := "dodo", speed := 10, endangerment := .extinct },
         { name := "hare", speed := 60, endangerment := .leastConcern }] =
      some ({ key := .leastConcern, count := 1, averageSpeed := 60 },
            { key := .extinct, count := 1, averageSpeed := 10 }, 50) ∧
    ({ key := EndangermentStatus.leastConcern, count := 1, averageSpeed := 60 } :
        KeyedSummary EndangermentStatus) ∈
      analysisStatusSummaries
        [{ name := "dodo", speed := 10, endangerment := .extinct },
         { name := "hare", speed := 60, endangerment := .leastConcern }] ∧
    (50 : ℚ) =
      ({ key := EndangermentStatus.leastConcern, count := 1, averageSpeed := 60 } :
        KeyedSummary EndangermentStatus).averageSpeed -
      ({ key := EndangermentStatus.extinct, count := 1, averageSpeed := 10 } :
        KeyedSummary EndangermentStatus).averageSpeed := by
  have hstat : statusInsightSummaries
      [{ name := "dodo", speed := 10, endangerment := .extinct },
       { name := "hare", speed := 60, endangerment := .leastConcern }] =
      [{ key := .leastConcern, count := 1, averageSpeed := 60 },
       { key := .extinct, count := 1, averageSpeed := 10 }] := by
    simp +decide [statusInsightSummaries, ENDANGERMENT_ORDER, calculateMeanSpeed]
  have hana : analysisStatusSummaries
      [{ name := "dodo", speed := 10, endangerment := .extinct },
       { name := "hare", speed := 60, endangerment := .leastConcern }] =
      [{ key := .leastConcern, count := 1, averageSpeed := 60 },
       { key := .extinct, count := 1, averageSpeed := 10 }] := by
    simp +decide [analysisStatusSummaries, hstat]
  have hsort : List.insertionSort speedGE
      [({ key := .leastConcern, count := 1, averageSpeed := 60 } :
          KeyedSummary EndangermentStatus),
       { key := .extinct, count := 1, averageSpeed := 10 }] =
      [{ key := .leastConcern, count := 1, averageSpeed := 60 },
       { key := .extinct, count := 1, averageSpeed := 10 }] := by
    norm_num [List.insertionSort, List.orderedInsert, speedGE]
  have heval : endangermentInsight
      [{ name := "dodo", speed := 10, endangerment := .extinct },
       { name := "hare", speed := 60, endangerment := .leastConcern }] =
      some ({ key := .leastConcern, count := 1, averageSpeed := 60 },
            { key := .extinct, count := 1, averageSpeed := 10 }, 50) := by
    simp only [endangermentInsight, hana, hsort]
    norm_num
  have h := (claim_C5
    [{ name := "dodo", speed := 10, endangerment := .extinct },
     { name := "hare", speed := 60, endangerment := .leastConcern }]).2.2.2 _ _ _ heval
  exact ⟨heval, h.1, h.2.2.2.2⟩

/-- Claim C7 (confirmed): whenever the weight insight is emitted, its
fastest record attains the maximum speed and is the FIRST record of the
validated sequence attaining it (`find?` with the bound met returns
exactly it, so earlier records win ties), and likewise the lightest and
heaviest records for minimal and maximal body mass. -/
theorem claim_C7 (logTen : ℚ → ℚ) (weightData : List WeightDatum) (w : WeightInsight)
    (hsome : weightInsight logTen weightData = some w) :
    (∀ b ∈ weightData, b.speed ≤ w.fastestSpecies.speed) ∧
    weightData.find? (fun b => decide (w.fastestSpecies.speed ≤ b.speed)) =
      some w.fastestSpecies ∧
    (∀ b ∈ weightData, w.lightestSpecies.bodyMass ≤ b.bodyMass) ∧
    weightData.find? (fun b => decide (b.bodyMass ≤ w.lightestSpecies.bodyMass)) =
      some w.lightestSpecies ∧
    (∀ b ∈ weightData, b.bodyMass ≤ w.heaviestSpecies.bodyMass) ∧
    weightData.find? (fun b => decide (w.heaviestSpecies.bodyMass ≤ b.bodyMass)) =
      some w.heaviestSpecies := by
  cases weightData with
  | nil => simp [weightInsight] at hsome
  | cons first rest =>
    by_cases h2 : 2 ≤ (first :: rest).length
    · simp only [weightInsight, if_pos h2] at hsome
      injection hsome with hrec
      rw [← hrec]
      refine ⟨?_, ?_, ?_, ?_, ?_, ?_⟩
      · exact (reduce_strict_max (fun datum => datum.speed) rest first).1
      · exact (reduce_strict_max (fun datum => datum.speed) rest first).2
      · exact (reduce_strict_min (fun datum => datum.bodyMass) rest first).1
      · exact (reduce_strict_min (fun datum => datum.bodyMass) rest first).2
      · exact (reduce_strict_max (fun datum => datum.bodyMass) rest first).1
      · exact (reduce_strict_max (fun datum => datum.bodyMass) rest first).2
    · simp only [weightInsight, if_neg h2] at hsome
      exact absurd hsome (by simp)

/-- Claim C7 witness: two records tying on speed and on body mass — the
earlier record "a" is reported as fastest, lightest and heaviest, and
`find?` confirms it is the first record attaining the maximum speed. -/
theorem claim_C7_witness :
    weightInsight (fun q => q)
        [{ name := "a", speed := 10, bodyMass := 5 },
         { name := "b", speed := 10, bodyMass := 5 }] =
      some { fastestSpecies := { name := "a", speed := 10, bodyMass := 5 },
             lightestSpecies := { name := "a", speed := 10, bodyMass := 5 },
             heaviestSpecies := { name := "a", speed := 10, bodyMass := 5 },
             massSpeedCorrelation := none } ∧
    [({ name := "a", speed := 10, bodyMass := 5 } : WeightDatum),
     { name := "b", speed := 10, bodyMass := 5 }].find?
        (fun b => decide
          ((({ fastestSpecies := { name := "a", speed := 10, bodyMass := 5 },
               lightestSpecies := { name := "a", speed := 10, bodyMass := 5 },
               heaviestSpecies := { name := "a", speed := 10, bodyMass := 5 },
               massSpeedCorrelation := none } : WeightInsight)).fastestSpecies.speed ≤ b.speed)) =
      some { name := "a", speed := 10, bodyMass := 5 } := by
  have heval : weightInsight (fun q => q)
      [{ name := "a", speed := 10, bodyMass := 5 },
       { name := "b", speed := 10, bodyMass := 5 }] =
      some { fastestSpecies := { name := "a", speed := 10, bodyMass := 5 },
             lightestSpecies := { name := "a", speed := 10, bodyMass := 5 },
             heaviestSpecies := { name := "a", speed := 10, bodyMass := 5 },
             massSpeedCorrelation := none } := by
    norm_num [weightInsight, pearsonParts, centeredSumSq, listMean]
  have h := claim_C7 (fun q => q)
    [{ name := "a", speed := 10, bodyMass := 5 },
     { name := "b", speed := 10, bodyMass := 5 }]
    { fastestSpecies := { name := "a", speed := 10, bodyMass := 5 },
      lightestSpecies := { name := "a", speed := 10, bodyMass := 5 },
      heaviestSpecies := { name := "a", speed := 10, bodyMass := 5 },
      massSpeedCorrelation := none } heval
  exact ⟨heval, h.2.1⟩
